import Mathlib

/-! Character set traits (libpbe, `charset/charset_traits.hh`)

A shallow embedding of the traits templates of `charset_traits.hh` and the
properties of the fixed-length codecs they define.

* A C++ traits struct (typedefs, `static const bool` flags and static member
  function templates) becomes a record `Traits C` of Booleans and functions.
* A unit pointer `p` is a buffer together with a signed position in it.  The
  functions take the pointer by reference, so each embedded function returns the
  pointer it leaves behind next to its C++ result.
* Dereferencing a pointer outside its buffer is undefined behaviour in C++; the
  embedding returns `none` there.  `++p` and `--p` perform no check at all.
-/

set_option linter.unusedVariables false

namespace pbe

/-! ## Types declared outside `charset_traits.hh` -/

/-- Modelled from the spec: the unit types `char8_t`, `char16_t`, `char32_t` are
declared in `char_t.hh`, which is not part of the sources at hand.  The spec
gives them as units of 8, 16 and 32 bits whose values are read as numbers
(0x41 = 65, 0xA0 = 160), so a unit of width `bits` is a number below
`2 ^ bits`. -/
abbrev uint (bits : Nat) : Type := Fin (2 ^ bits)

abbrev char8_t : Type := uint 8
abbrev char16_t : Type := uint 16
abbrev char32_t : Type := uint 32

/-- The type `size_t` of the buffer-size estimators.  The estimators do no
arithmetic, so its width plays no role and it is embedded as `Nat`. -/
abbrev size_t : Type := Nat

/-- Modelled from the spec: the enumeration `charset_t` (namespace `cs`) is
declared in `charset_t.hh`, which is not part of the sources at hand.  Every
member that `charset_traits.hh` specialises `charset_traits` for has a
constructor of its own, in the order of the file; `unspecialised` stands for
the remaining members (utf8, shift_jis, ...), for which this file gives no
specialisation. -/
inductive charset_t where
  | ascii
  | iso8859_1
  | iso8859_2
  | iso8859_3
  | iso8859_4
  | iso8859_5
  | iso8859_6
  | iso8859_7
  | iso8859_8
  | iso8859_9
  | iso8859_10
  | iso8859_13
  | iso8859_14
  | iso8859_15
  | iso8859_16
  | iso646_gb
  | iso646_se2
  | iso646_it
  | iso646_es
  | iso646_de
  | iso646_no
  | iso646_fr
  | iso646_se
  | iso646_pt
  | iso646_fr1
  | iso646_no2
  | iso646_pt2
  | iso646_es2
  | iso646_hu
  | iso646_jp_ocr_b
  | iso646_ca
  | iso646_ca2
  | iso646_yu
  | iso646_cu
  | iso646_dk
  | iso646_kr
  | cp037
  | cp038
  | cp154
  | cp273
  | cp274
  | cp275
  | ibm277
  | cp278
  | cp280
  | cp281
  | cp284
  | cp285
  | cp290
  | cp297
  | cp420
  | cp423
  | cp424
  | cp437
  | cp500
  | cp775
  | cp850
  | cp851
  | cp852
  | cp855
  | cp857
  | cp860
  | cp861
  | cp862
  | cp863
  | cp864
  | cp865
  | cp866
  | cp868
  | cp869
  | cp870
  | cp871
  | cp880
  | cp891
  | cp903
  | cp904
  | cp905
  | cp918
  | windows936
  | cp1026
  | ibm1047
  | windows_1250
  | windows_1251
  | windows_1252
  | windows_1253
  | windows_1254
  | windows_1255
  | windows_1256
  | windows_1257
  | windows_1258
  | cp00858
  | cp00924
  | cp01140
  | cp01141
  | cp01142
  | cp01143
  | cp01144
  | cp01145
  | cp01146
  | cp01147
  | cp01148
  | cp01149
  | koi8_e
  | koi8_r
  | koi8_u
  | ucs2
  | ucs4
  | unspecialised (id : Nat)

/-! ## Unit pointers -/

/-- A pointer into a buffer of units: the buffer and the position pointed at.
Position `0` is the first unit; a position outside `0 .. buf.length - 1` does
not point at a unit. -/
structure unit_ptr_t (C : Type) where
  buf : List C
  pos : Int
  deriving DecidableEq

namespace unit_ptr_t

variable {C : Type}

/-- The pointer points at a unit of its buffer. -/
def in_bounds (p : unit_ptr_t C) : Prop :=
  0 ≤ p.pos ∧ p.pos < p.buf.length

instance (p : unit_ptr_t C) : Decidable p.in_bounds := by
  unfold in_bounds; infer_instance

/-- Reading `*p`. -/
def read (p : unit_ptr_t C) : Option C :=
  if 0 ≤ p.pos then p.buf[p.pos.toNat]? else none

/-- Assignment `*p = c`: the buffer after it. -/
def write (p : unit_ptr_t C) (c : C) : Option (List C) :=
  if 0 ≤ p.pos ∧ p.pos < p.buf.length then some (p.buf.set p.pos.toNat c) else none

/-- Increment `++p`. -/
def incr (p : unit_ptr_t C) : unit_ptr_t C := ⟨p.buf, p.pos + 1⟩

/-- Decrement `--p`. -/
def decr (p : unit_ptr_t C) : unit_ptr_t C := ⟨p.buf, p.pos - 1⟩

end unit_ptr_t

/-! ## The traits structs -/

/-- The members of a traits struct whose `char_t` and `unit_t` are both `C`. -/
structure Traits (C : Type) where
  state_t : Type
  is_ascii_superset : Bool
  is_ascii_plus_c1_superset : Bool
  decode : unit_ptr_t C → Option (C × unit_ptr_t C)
  encode : unit_ptr_t C → C → Option (unit_ptr_t C)
  skip_forward_char : unit_ptr_t C → unit_ptr_t C
  skip_backward_char : unit_ptr_t C → unit_ptr_t C
  char_length : unit_ptr_t C → Int × unit_ptr_t C
  max_characters : size_t → size_t
  typ_characters : size_t → size_t
  max_units : size_t → size_t
  typ_units : size_t → size_t

/-- Source: `typedef C char_t;` -/
abbrev Traits.char_t {C : Type} (t : Traits C) : Type := C

/-- Source: `typedef C unit_t;` -/
abbrev Traits.unit_t {C : Type} (t : Traits C) : Type := C

namespace fixed_charset_traits

/-- Source: `struct state_t {};` declared inside `fixed_charset_traits<cset,C>`: one
empty struct for each instantiation of the template. -/
structure state_t (cset : charset_t) (C : Type) : Type where
  deriving DecidableEq

/-- Source: `char_t decode(const_unit_ptr_t& p) { return *(p++); }` -/
def decode (cset : charset_t) (C : Type) (p : unit_ptr_t C) : Option (C × unit_ptr_t C) :=
  match p.read with
  | some u => some (u, p.incr)
  | none => none

/-- Source: `void encode(unit_ptr_t& p, char_t c) { *(p++) = c; }` -/
def encode (cset : charset_t) (C : Type) (p : unit_ptr_t C) (c : C) : Option (unit_ptr_t C) :=
  match p.write c with
  | some buf => some (unit_ptr_t.incr ⟨buf, p.pos⟩)
  | none => none

/-- Source: `void skip_forward_char(const_unit_ptr_t& p) { ++p; }` -/
def skip_forward_char (cset : charset_t) (C : Type) (p : unit_ptr_t C) : unit_ptr_t C := p.incr

/-- Source: `void skip_backward_char(const_unit_ptr_t& p) { --p; }` -/
def skip_backward_char (cset : charset_t) (C : Type) (p : unit_ptr_t C) : unit_ptr_t C := p.decr

/-- Source: `int char_length(const_unit_ptr_t& p) { return 1; }` -/
def char_length (cset : charset_t) (C : Type) (p : unit_ptr_t C) : Int × unit_ptr_t C := (1, p)

/-- Source: `size_t max_characters(size_t n_units) { return n_units; }` -/
def max_characters (cset : charset_t) (C : Type) (n_units : size_t) : size_t := n_units

/-- Source: `size_t typ_characters(size_t n_units) { return n_units; }` -/
def typ_characters (cset : charset_t) (C : Type) (n_units : size_t) : size_t := n_units

/-- Source: `size_t max_units(size_t n_characters) { return n_characters; }` -/
def max_units (cset : charset_t) (C : Type) (n_characters : size_t) : size_t := n_characters

/-- Source: `size_t typ_units(size_t n_characters) { return n_characters; }` -/
def typ_units (cset : charset_t) (C : Type) (n_characters : size_t) : size_t := n_characters

end fixed_charset_traits

/-- Source: `template <charset_t cset, typename C> struct fixed_charset_traits` -/
def fixed_charset_traits (cset : charset_t) (C : Type) : Traits C where
  state_t := fixed_charset_traits.state_t cset C
  is_ascii_superset := false
  is_ascii_plus_c1_superset := false
  decode := fixed_charset_traits.decode cset C
  encode := fixed_charset_traits.encode cset C
  skip_forward_char := fixed_charset_traits.skip_forward_char cset C
  skip_backward_char := fixed_charset_traits.skip_backward_char cset C
  char_length := fixed_charset_traits.char_length cset C
  max_characters := fixed_charset_traits.max_characters cset C
  typ_characters := fixed_charset_traits.typ_characters cset C
  max_units := fixed_charset_traits.max_units cset C
  typ_units := fixed_charset_traits.typ_units cset C

/-- Source: `struct fixed_byte_charset_traits: fixed_charset_traits<cset,char8_t> {};` -/
def fixed_byte_charset_traits (cset : charset_t) : Traits char8_t :=
  fixed_charset_traits cset char8_t

/-- Source: `struct fixed_byte_ascii_superset_charset_traits: fixed_byte_charset_traits<cset>`:
the two flags are declared again and hide the inherited ones, every other
member is inherited. -/
def fixed_byte_ascii_superset_charset_traits (cset : charset_t) : Traits char8_t where
  state_t := (fixed_byte_charset_traits cset).state_t
  is_ascii_superset := true
  is_ascii_plus_c1_superset := false
  decode := (fixed_byte_charset_traits cset).decode
  encode := (fixed_byte_charset_traits cset).encode
  skip_forward_char := (fixed_byte_charset_traits cset).skip_forward_char
  skip_backward_char := (fixed_byte_charset_traits cset).skip_backward_char
  char_length := (fixed_byte_charset_traits cset).char_length
  max_characters := (fixed_byte_charset_traits cset).max_characters
  typ_characters := (fixed_byte_charset_traits cset).typ_characters
  max_units := (fixed_byte_charset_traits cset).max_units
  typ_units := (fixed_byte_charset_traits cset).typ_units

/-- Source: `struct fixed_byte_iso8859_common_superset_charset_traits: fixed_byte_charset_traits<cset>`:
the two flags are declared again and hide the inherited ones, every other
member is inherited. -/
def fixed_byte_iso8859_common_superset_charset_traits (cset : charset_t) : Traits char8_t where
  state_t := (fixed_byte_charset_traits cset).state_t
  is_ascii_superset := true
  is_ascii_plus_c1_superset := true
  decode := (fixed_byte_charset_traits cset).decode
  encode := (fixed_byte_charset_traits cset).encode
  skip_forward_char := (fixed_byte_charset_traits cset).skip_forward_char
  skip_backward_char := (fixed_byte_charset_traits cset).skip_backward_char
  char_length := (fixed_byte_charset_traits cset).char_length
  max_characters := (fixed_byte_charset_traits cset).max_characters
  typ_characters := (fixed_byte_charset_traits cset).typ_characters
  max_units := (fixed_byte_charset_traits cset).max_units
  typ_units := (fixed_byte_charset_traits cset).typ_units

/-- A specialisation of `charset_traits`: the width of its unit type and its
members. -/
structure specialisation where
  bits : Nat
  traits : Traits (uint bits)

/-- Source: `template <charset_t cset> struct charset_traits {};` and its
specialisations.  The base template has no members (`none`); a specialisation
inherits every member from the struct named after the colon. -/
def charset_traits : charset_t → Option specialisation
  | .ascii => some ⟨8, fixed_byte_ascii_superset_charset_traits .ascii⟩
  | .iso8859_1 => some ⟨8, fixed_byte_iso8859_common_superset_charset_traits .iso8859_1⟩
  | .iso8859_2 => some ⟨8, fixed_byte_iso8859_common_superset_charset_traits .iso8859_2⟩
  | .iso8859_3 => some ⟨8, fixed_byte_iso8859_common_superset_charset_traits .iso8859_3⟩
  | .iso8859_4 => some ⟨8, fixed_byte_iso8859_common_superset_charset_traits .iso8859_4⟩
  | .iso8859_5 => some ⟨8, fixed_byte_iso8859_common_superset_charset_traits .iso8859_5⟩
  | .iso8859_6 => some ⟨8, fixed_byte_iso8859_common_superset_charset_traits .iso8859_6⟩
  | .iso8859_7 => some ⟨8, fixed_byte_iso8859_common_superset_charset_traits .iso8859_7⟩
  | .iso8859_8 => some ⟨8, fixed_byte_iso8859_common_superset_charset_traits .iso8859_8⟩
  | .iso8859_9 => some ⟨8, fixed_byte_iso8859_common_superset_charset_traits .iso8859_9⟩
  | .iso8859_10 => some ⟨8, fixed_byte_iso8859_common_superset_charset_traits .iso8859_10⟩
  | .iso8859_13 => some ⟨8, fixed_byte_iso8859_common_superset_charset_traits .iso8859_13⟩
  | .iso8859_14 => some ⟨8, fixed_byte_iso8859_common_superset_charset_traits .iso8859_14⟩
  | .iso8859_15 => some ⟨8, fixed_byte_iso8859_common_superset_charset_traits .iso8859_15⟩
  | .iso8859_16 => some ⟨8, fixed_byte_iso8859_common_superset_charset_traits .iso8859_16⟩
  | .iso646_gb => some ⟨8, fixed_byte_charset_traits .iso646_gb⟩
  | .iso646_se2 => some ⟨8, fixed_byte_charset_traits .iso646_se2⟩
  | .iso646_it => some ⟨8, fixed_byte_charset_traits .iso646_it⟩
  | .iso646_es => some ⟨8, fixed_byte_charset_traits .iso646_es⟩
  | .iso646_de => some ⟨8, fixed_byte_charset_traits .iso646_de⟩
  | .iso646_no => some ⟨8, fixed_byte_charset_traits .iso646_no⟩
  | .iso646_fr => some ⟨8, fixed_byte_charset_traits .iso646_fr⟩
  | .iso646_se => some ⟨8, fixed_byte_charset_traits .iso646_se⟩
  | .iso646_pt => some ⟨8, fixed_byte_charset_traits .iso646_pt⟩
  | .iso646_fr1 => some ⟨8, fixed_byte_charset_traits .iso646_fr1⟩
  | .iso646_no2 => some ⟨8, fixed_byte_charset_traits .iso646_no2⟩
  | .iso646_pt2 => some ⟨8, fixed_byte_charset_traits .iso646_pt2⟩
  | .iso646_es2 => some ⟨8, fixed_byte_charset_traits .iso646_es2⟩
  | .iso646_hu => some ⟨8, fixed_byte_charset_traits .iso646_hu⟩
  | .iso646_jp_ocr_b => some ⟨8, fixed_byte_charset_traits .iso646_jp_ocr_b⟩
  | .iso646_ca => some ⟨8, fixed_byte_charset_traits .iso646_ca⟩
  | .iso646_ca2 => some ⟨8, fixed_byte_charset_traits .iso646_ca2⟩
  | .iso646_yu => some ⟨8, fixed_byte_charset_traits .iso646_yu⟩
  | .iso646_cu => some ⟨8, fixed_byte_charset_traits .iso646_cu⟩
  | .iso646_dk => some ⟨8, fixed_byte_charset_traits .iso646_dk⟩
  | .iso646_kr => some ⟨8, fixed_byte_charset_traits .iso646_kr⟩
  | .cp037 => some ⟨8, fixed_byte_charset_traits .cp037⟩
  | .cp038 => some ⟨8, fixed_byte_charset_traits .cp038⟩
  | .cp154 => some ⟨8, fixed_byte_charset_traits .cp154⟩
  | .cp273 => some ⟨8, fixed_byte_charset_traits .cp273⟩
  | .cp274 => some ⟨8, fixed_byte_charset_traits .cp274⟩
  | .cp275 => some ⟨8, fixed_byte_charset_traits .cp275⟩
  | .ibm277 => some ⟨8, fixed_byte_charset_traits .ibm277⟩
  | .cp278 => some ⟨8, fixed_byte_charset_traits .cp278⟩
  | .cp280 => some ⟨8, fixed_byte_charset_traits .cp280⟩
  | .cp281 => some ⟨8, fixed_byte_charset_traits .cp281⟩
  | .cp284 => some ⟨8, fixed_byte_charset_traits .cp284⟩
  | .cp285 => some ⟨8, fixed_byte_charset_traits .cp285⟩
  | .cp290 => some ⟨8, fixed_byte_charset_traits .cp290⟩
  | .cp297 => some ⟨8, fixed_byte_charset_traits .cp297⟩
  | .cp420 => some ⟨8, fixed_byte_charset_traits .cp420⟩
  | .cp423 => some ⟨8, fixed_byte_charset_traits .cp423⟩
  | .cp424 => some ⟨8, fixed_byte_charset_traits .cp424⟩
  | .cp437 => some ⟨8, fixed_byte_charset_traits .cp437⟩
  | .cp500 => some ⟨8, fixed_byte_charset_traits .cp500⟩
  | .cp775 => some ⟨8, fixed_byte_charset_traits .cp775⟩
  | .cp850 => some ⟨8, fixed_byte_charset_traits .cp850⟩
  | .cp851 => some ⟨8, fixed_byte_charset_traits .cp851⟩
  | .cp852 => some ⟨8, fixed_byte_charset_traits .cp852⟩
  | .cp855 => some ⟨8, fixed_byte_charset_traits .cp855⟩
  | .cp857 => some ⟨8, fixed_byte_charset_traits .cp857⟩
  | .cp860 => some ⟨8, fixed_byte_charset_traits .cp860⟩
  | .cp861 => some ⟨8, fixed_byte_charset_traits .cp861⟩
  | .cp862 => some ⟨8, fixed_byte_charset_traits .cp862⟩
  | .cp863 => some ⟨8, fixed_byte_charset_traits .cp863⟩
  | .cp864 => some ⟨8, fixed_byte_charset_traits .cp864⟩
  | .cp865 => some ⟨8, fixed_byte_charset_traits .cp865⟩
  | .cp866 => some ⟨8, fixed_byte_charset_traits .cp866⟩
  | .cp868 => some ⟨8, fixed_byte_charset_traits .cp868⟩
  | .cp869 => some ⟨8, fixed_byte_charset_traits .cp869⟩
  | .cp870 => some ⟨8, fixed_byte_charset_traits .cp870⟩
  | .cp871 => some ⟨8, fixed_byte_charset_traits .cp871⟩
  | .cp880 => some ⟨8, fixed_byte_charset_traits .cp880⟩
  | .cp891 => some ⟨8, fixed_byte_charset_traits .cp891⟩
  | .cp903 => some ⟨8, fixed_byte_charset_traits .cp903⟩
  | .cp904 => some ⟨8, fixed_byte_charset_traits .cp904⟩
  | .cp905 => some ⟨8, fixed_byte_charset_traits .cp905⟩
  | .cp918 => some ⟨8, fixed_byte_charset_traits .cp918⟩
  | .windows936 => some ⟨8, fixed_byte_charset_traits .windows936⟩
  | .cp1026 => some ⟨8, fixed_byte_charset_traits .cp1026⟩
  | .ibm1047 => some ⟨8, fixed_byte_charset_traits .ibm1047⟩
  | .windows_1250 => some ⟨8, fixed_byte_charset_traits .windows_1250⟩
  | .windows_1251 => some ⟨8, fixed_byte_charset_traits .windows_1251⟩
  | .windows_1252 => some ⟨8, fixed_byte_charset_traits .windows_1252⟩
  | .windows_1253 => some ⟨8, fixed_byte_charset_traits .windows_1253⟩
  | .windows_1254 => some ⟨8, fixed_byte_charset_traits .windows_1254⟩
  | .windows_1255 => some ⟨8, fixed_byte_charset_traits .windows_1255⟩
  | .windows_1256 => some ⟨8, fixed_byte_charset_traits .windows_1256⟩
  | .windows_1257 => some ⟨8, fixed_byte_charset_traits .windows_1257⟩
  | .windows_1258 => some ⟨8, fixed_byte_charset_traits .windows_1258⟩
  | .cp00858 => some ⟨8, fixed_byte_charset_traits .cp00858⟩
  | .cp00924 => some ⟨8, fixed_byte_charset_traits .cp00924⟩
  | .cp01140 => some ⟨8, fixed_byte_charset_traits .cp01140⟩
  | .cp01141 => some ⟨8, fixed_byte_charset_traits .cp01141⟩
  | .cp01142 => some ⟨8, fixed_byte_charset_traits .cp01142⟩
  | .cp01143 => some ⟨8, fixed_byte_charset_traits .cp01143⟩
  | .cp01144 => some ⟨8, fixed_byte_charset_traits .cp01144⟩
  | .cp01145 => some ⟨8, fixed_byte_charset_traits .cp01145⟩
  | .cp01146 => some ⟨8, fixed_byte_charset_traits .cp01146⟩
  | .cp01147 => some ⟨8, fixed_byte_charset_traits .cp01147⟩
  | .cp01148 => some ⟨8, fixed_byte_charset_traits .cp01148⟩
  | .cp01149 => some ⟨8, fixed_byte_charset_traits .cp01149⟩
  | .koi8_e => some ⟨8, fixed_byte_ascii_superset_charset_traits .koi8_e⟩
  | .koi8_r => some ⟨8, fixed_byte_ascii_superset_charset_traits .koi8_r⟩
  | .koi8_u => some ⟨8, fixed_byte_ascii_superset_charset_traits .koi8_u⟩
  | .ucs2 => some ⟨16, fixed_charset_traits .ucs2 char16_t⟩
  | .ucs4 => some ⟨32, fixed_charset_traits .ucs4 char32_t⟩
  | .unspecialised _ => none

/-- The two compatibility flags of a charset, `is_ascii_superset` first. -/
def charset_traits.flags (cset : charset_t) : Option (Bool × Bool) :=
  match charset_traits cset with
  | some s => some (s.traits.is_ascii_superset, s.traits.is_ascii_plus_c1_superset)
  | none => none

/-! ## The families of charsets in the file -/

/-- The charsets specialised under the heading of the ISO-8859 character sets. -/
def iso8859_charsets : List charset_t :=
  [.iso8859_1, .iso8859_2, .iso8859_3, .iso8859_4, .iso8859_5, .iso8859_6, .iso8859_7,
   .iso8859_8, .iso8859_9, .iso8859_10, .iso8859_13, .iso8859_14, .iso8859_15, .iso8859_16]

/-- The charsets specialised under the heading of the ISO-646 character sets. -/
def iso646_charsets : List charset_t :=
  [.iso646_gb, .iso646_se2, .iso646_it, .iso646_es, .iso646_de, .iso646_no, .iso646_fr,
   .iso646_se, .iso646_pt, .iso646_fr1, .iso646_no2, .iso646_pt2, .iso646_es2, .iso646_hu,
   .iso646_jp_ocr_b, .iso646_ca, .iso646_ca2, .iso646_yu, .iso646_cu, .iso646_dk, .iso646_kr]

/-- The charsets specialised under the heading of the 8-bit code pages: the cp,
ibm and windows members. -/
def code_page_charsets : List charset_t :=
  [.cp037, .cp038, .cp154, .cp273, .cp274, .cp275, .ibm277, .cp278, .cp280, .cp281, .cp284,
   .cp285, .cp290, .cp297, .cp420, .cp423, .cp424, .cp437, .cp500, .cp775, .cp850, .cp851,
   .cp852, .cp855, .cp857, .cp860, .cp861, .cp862, .cp863, .cp864, .cp865, .cp866, .cp868,
   .cp869, .cp870, .cp871, .cp880, .cp891, .cp903, .cp904, .cp905, .cp918, .windows936,
   .cp1026, .ibm1047, .windows_1250, .windows_1251, .windows_1252, .windows_1253,
   .windows_1254, .windows_1255, .windows_1256, .windows_1257, .windows_1258, .cp00858,
   .cp00924, .cp01140, .cp01141, .cp01142, .cp01143, .cp01144, .cp01145, .cp01146, .cp01147,
   .cp01148, .cp01149]

/-- The charsets specialised under the heading of the cyrillic KOI8 character sets. -/
def koi8_charsets : List charset_t :=
  [.koi8_e, .koi8_r, .koi8_u]

/-- The charsets specialised under the heading of the fixed Unicode formats. -/
def fixed_unicode_charsets : List charset_t :=
  [.ucs2, .ucs4]

/-- The spec on `is_ascii_superset`, unit values 0-127 decode to the identical
character as ASCII, for a specialisation `s`: whenever a pointer `p` into a buffer of `s` and
a pointer `a` into an ASCII buffer point at units of the same value `u ≤ 127`,
decoding at `p` with the codec of `s` and decoding at `a` with the codec of
`charset_traits<cs::ascii>` both yield a character, of the same value. -/
def decodes_ascii_range_as_ascii (s : specialisation) : Prop :=
  ∀ (u : Nat) (p : unit_ptr_t (uint s.bits)) (a : unit_ptr_t char8_t), u ≤ 127 →
    p.read.map Fin.val = some u → a.read.map Fin.val = some u →
    ∃ c : Nat, (s.traits.decode p).map (fun r => r.1.val) = some c ∧
      ((fixed_byte_ascii_superset_charset_traits .ascii).decode a).map (fun r => r.1.val)
        = some c

/-! ## Whole-buffer passes of a caller -/

/-- The decoding pass of a caller over a whole buffer: while the pointer has not
reached the end of the buffer, call `decode` and append the character it
returns.  The result is the characters in the order decoded and the pointer
left behind, so the number of `decode` calls is the length of the list.  `fuel`
bounds the number of calls; the pass returns `none` when it is used up before
the end is reached, or when a `decode` fails. -/
def decode_to_end {C : Type} (t : Traits C) (fuel : Nat) (p : unit_ptr_t C) :
    Option (List C × unit_ptr_t C) :=
  if p.pos = p.buf.length then some ([], p)
  else
    match fuel with
    | 0 => none
    | fuel + 1 =>
      match t.decode p with
      | none => none
      | some (c, q) =>
        match decode_to_end t fuel q with
        | none => none
        | some (cs, r) => some (c :: cs, r)

/-- The encoding pass of a caller: call `encode` for each character of the
sequence in order, each call starting at the pointer the previous one left. -/
def encode_all {C : Type} (t : Traits C) : List C → unit_ptr_t C → Option (unit_ptr_t C)
  | [], p => some p
  | c :: cs, p =>
    match t.encode p c with
    | none => none
    | some q => encode_all t cs q

/-- The walk of a caller over the character boundaries of a buffer: while the
pointer has not reached the end of the buffer, record the position and the
`char_length` there and call `skip_forward_char`.  The result lists the visited
positions with the length found at each.  `fuel` bounds the number of steps. -/
def walk_to_end {C : Type} (t : Traits C) (fuel : Nat) (p : unit_ptr_t C) :
    Option (List (Int × Int)) :=
  if p.pos = p.buf.length then some []
  else
    match fuel with
    | 0 => none
    | fuel + 1 =>
      match t.char_length p with
      | (len, p1) =>
        match walk_to_end t fuel (t.skip_forward_char p1) with
        | none => none
        | some visited => some ((p.pos, len) :: visited)

/-! ## Dynamic lookup -/

/-- Modelled from the spec: the error kinds of the spec's error taxonomy.  The
sources at hand declare no error type. -/
inductive charset_error where
  | UnknownCharset
  | InvalidSequence
  | TruncatedSequence
  | UnrepresentableCharacter
  deriving DecidableEq

/-- Modelled from the spec: the dynamic codec registry, which is not part of the
sources at hand (they bind a charset to its codec by template specialisation
only).  The spec asks for one entry per supported identifier, holding a
type-erased codec that behaves as the static binding does, and for a lookup
failure to be the reportable error `UnknownCharset` rather than a fallback.
The supported identifiers are those `charset_traits` is specialised for. -/
def registry_lookup (cset : charset_t) : Except charset_error specialisation :=
  match charset_traits cset with
  | some s => Except.ok s
  | none => Except.error charset_error.UnknownCharset

/-! ## The pointer operations -/

namespace unit_ptr_t

variable {C : Type}

theorem read_of_in_bounds (p : unit_ptr_t C) (hp : p.in_bounds) :
    ∃ u, p.buf[p.pos.toNat]? = some u ∧ p.read = some u := by
  obtain ⟨h0, h1⟩ := hp
  have hlt : p.pos.toNat < p.buf.length := by omega
  refine ⟨p.buf[p.pos.toNat], List.getElem?_eq_getElem hlt, ?_⟩
  simp [read, h0, List.getElem?_eq_getElem hlt]

theorem write_of_in_bounds (p : unit_ptr_t C) (c : C) (hp : p.in_bounds) :
    p.write c = some (p.buf.set p.pos.toNat c) := by
  obtain ⟨h0, h1⟩ := hp
  simp [write, h0, h1]

end unit_ptr_t

/-! ## The template `fixed_charset_traits<cset, C>`, for every `cset` and `C` -/

namespace fixed_charset_traits

variable (cset : charset_t) (C : Type)

theorem decode_of_in_bounds (p : unit_ptr_t C) (hp : p.in_bounds) :
    ∃ u, p.buf[p.pos.toNat]? = some u ∧
      decode cset C p = some (u, ⟨p.buf, p.pos + 1⟩) := by
  obtain ⟨u, hu, hr⟩ := p.read_of_in_bounds hp
  exact ⟨u, hu, by simp [decode, hr, unit_ptr_t.incr]⟩

theorem encode_of_in_bounds (p : unit_ptr_t C) (c : C) (hp : p.in_bounds) :
    encode cset C p c = some ⟨p.buf.set p.pos.toNat c, p.pos + 1⟩ := by
  simp [encode, p.write_of_in_bounds c hp, unit_ptr_t.incr]

theorem decode_after_encode (p : unit_ptr_t C) (v : C) (hp : p.in_bounds) :
    ∃ q, encode cset C p v = some q ∧
      decode cset C ⟨q.buf, p.pos⟩ = some (v, ⟨q.buf, p.pos + 1⟩) := by
  refine ⟨_, encode_of_in_bounds cset C p v hp, ?_⟩
  obtain ⟨h0, h1⟩ := hp
  have hlt : p.pos.toNat < p.buf.length := by omega
  simp [decode, unit_ptr_t.read, unit_ptr_t.incr, h0, hlt]

theorem skip_backward_forward (p : unit_ptr_t C) :
    skip_backward_char cset C (skip_forward_char cset C p) = p := by
  cases p
  simp [skip_backward_char, skip_forward_char, unit_ptr_t.incr, unit_ptr_t.decr]

end fixed_charset_traits

/-! ## The specialisations of `charset_traits` -/

/-- Every specialisation of `charset_traits` in the file takes its nine
functions from `fixed_charset_traits` at its own unit type. -/
theorem charset_traits_members (cset : charset_t) (bits : Nat) (t : Traits (uint bits))
    (h : charset_traits cset = some ⟨bits, t⟩) :
    t.decode = fixed_charset_traits.decode cset (uint bits) ∧
    t.encode = fixed_charset_traits.encode cset (uint bits) ∧
    t.skip_forward_char = fixed_charset_traits.skip_forward_char cset (uint bits) ∧
    t.skip_backward_char = fixed_charset_traits.skip_backward_char cset (uint bits) ∧
    t.char_length = fixed_charset_traits.char_length cset (uint bits) ∧
    t.max_characters = fixed_charset_traits.max_characters cset (uint bits) ∧
    t.typ_characters = fixed_charset_traits.typ_characters cset (uint bits) ∧
    t.max_units = fixed_charset_traits.max_units cset (uint bits) ∧
    t.typ_units = fixed_charset_traits.typ_units cset (uint bits) := by
  cases cset <;> simp only [charset_traits, Option.some.injEq, specialisation.mk.injEq,
      reduceCtorEq] at h <;> obtain ⟨rfl, h⟩ := h <;> cases h <;>
    exact ⟨rfl, rfl, rfl, rfl, rfl, rfl, rfl, rfl, rfl⟩

/-- The flags of every specialisation in the file are one of the three pairs
declared by the base structs. -/
theorem charset_traits_flags (cset : charset_t) (s : specialisation)
    (h : charset_traits cset = some s) :
    (s.traits.is_ascii_superset = false ∧ s.traits.is_ascii_plus_c1_superset = false) ∨
    (s.traits.is_ascii_superset = true ∧ s.traits.is_ascii_plus_c1_superset = false) ∨
    (s.traits.is_ascii_superset = true ∧ s.traits.is_ascii_plus_c1_superset = true) := by
  cases cset <;> simp only [charset_traits, Option.some.injEq, reduceCtorEq] at h <;>
    subst h <;> decide

/-! ## Properties of the fixed codecs -/

/-- C1: round trip.  For every charset specialised in the file (the 8-bit byte
charsets, 16-bit ucs2, 32-bit ucs4), every buffer, every in-bounds pointer `p`
and every value `v` of the unit type, `encode` at `p` succeeds and `decode` on
the resulting buffer at the same position returns exactly `v`. -/
theorem fixed_codec_round_trip (cset : charset_t) (s : specialisation)
    (hs : charset_traits cset = some s) (p : unit_ptr_t (uint s.bits)) (v : uint s.bits)
    (hp : p.in_bounds) :
    ∃ q, s.traits.encode p v = some q ∧
      s.traits.decode ⟨q.buf, p.pos⟩ = some (v, ⟨q.buf, p.pos + 1⟩) := by
  obtain ⟨bits, t⟩ := s
  obtain ⟨hd, he, -⟩ := charset_traits_members cset bits t hs
  simp only [hd, he]
  exact fixed_charset_traits.decode_after_encode cset (uint bits) p v hp

/-- Writing the largest 32-bit value into a ucs4 buffer and reading it back
(C1 at a concrete input). -/
theorem fixed_codec_round_trip_witness :
    ∃ q, (fixed_charset_traits charset_t.ucs4 char32_t).encode ⟨[0x41, 0x42], 1⟩ 0xFFFFFFFF = some q ∧
      (fixed_charset_traits charset_t.ucs4 char32_t).decode ⟨q.buf, 1⟩
        = some (0xFFFFFFFF, ⟨q.buf, 1 + 1⟩) :=
  fixed_codec_round_trip .ucs4 ⟨32, fixed_charset_traits .ucs4 char32_t⟩ rfl
    ⟨[0x41, 0x42], 1⟩ 0xFFFFFFFF (by decide)

/-- C2: fixed-codec decode.  For every charset specialised in the file, every
buffer and every in-bounds pointer `p`, `decode` returns the unit stored at `p`,
leaves the pointer at `p + 1` and leaves the buffer as it was. -/
theorem fixed_codec_decode (cset : charset_t) (s : specialisation)
    (hs : charset_traits cset = some s) (p : unit_ptr_t (uint s.bits)) (hp : p.in_bounds) :
    ∃ u, p.buf[p.pos.toNat]? = some u ∧
      s.traits.decode p = some (u, ⟨p.buf, p.pos + 1⟩) := by
  obtain ⟨bits, t⟩ := s
  obtain ⟨hd, -⟩ := charset_traits_members cset bits t hs
  simp only [hd]
  exact fixed_charset_traits.decode_of_in_bounds cset (uint bits) p hp

/-- The ASCII codec at a unit 0x41 yields character 65 (C2 at a concrete
input). -/
theorem fixed_codec_decode_witness :
    (fixed_byte_ascii_superset_charset_traits charset_t.ascii).decode ⟨[0x41], 0⟩
      = some (65, ⟨[0x41], 1⟩) := by
  obtain ⟨u, hu, hd⟩ := fixed_codec_decode .ascii
    ⟨8, fixed_byte_ascii_superset_charset_traits .ascii⟩ rfl ⟨[0x41], 0⟩ (by decide)
  have hu65 : u = 65 := by simpa using hu.symm
  rw [hd, hu65]
  rfl

/-- C3: fixed-codec encode.  For every charset specialised in the file, every
buffer, in-bounds pointer `p` and character `c`, `encode` yields a buffer of the
same length whose unit at `p` is `c` and whose units at every other index are
those of the old buffer, and leaves the pointer at `p + 1`. -/
theorem fixed_codec_encode (cset : charset_t) (s : specialisation)
    (hs : charset_traits cset = some s) (p : unit_ptr_t (uint s.bits)) (c : uint s.bits)
    (hp : p.in_bounds) :
    ∃ q, s.traits.encode p c = some q ∧
      q.pos = p.pos + 1 ∧
      q.buf.length = p.buf.length ∧
      q.buf[p.pos.toNat]? = some c ∧
      ∀ i : Nat, i ≠ p.pos.toNat → q.buf[i]? = p.buf[i]? := by
  obtain ⟨bits, t⟩ := s
  obtain ⟨-, he, -⟩ := charset_traits_members cset bits t hs
  have hlt : p.pos.toNat < p.buf.length := by
    obtain ⟨h0, h1⟩ := hp
    omega
  refine ⟨_, by simp only [he]; exact fixed_charset_traits.encode_of_in_bounds cset _ p c hp,
    rfl, by simp, by simp [hlt], ?_⟩
  intro i hi
  simp [List.getElem?_set, Ne.symm hi]

/-- Encoding 65 in the middle of a three-unit ASCII buffer (C3 at a concrete
input). -/
theorem fixed_codec_encode_witness :
    ∃ q, (fixed_byte_ascii_superset_charset_traits charset_t.ascii).encode ⟨[1, 2, 3], 1⟩ 65
        = some q ∧
      q.pos = 1 + 1 ∧
      q.buf.length = 3 ∧
      q.buf[1]? = some 65 ∧
      ∀ i : Nat, i ≠ 1 → q.buf[i]? = ([1, 2, 3] : List char8_t)[i]? :=
  fixed_codec_encode .ascii ⟨8, fixed_byte_ascii_superset_charset_traits .ascii⟩ rfl
    ⟨[1, 2, 3], 1⟩ 65 (by decide)

/-- C4: for every charset specialised in the file and every `n`, the four
buffer-size estimators `max_characters`, `typ_characters`, `max_units` and
`typ_units` return `n`, so the worst-case and the typical estimate coincide. -/
theorem fixed_codec_estimators (cset : charset_t) (s : specialisation)
    (hs : charset_traits cset = some s) (n : size_t) :
    s.traits.max_characters n = n ∧ s.traits.typ_characters n = n ∧
      s.traits.max_units n = n ∧ s.traits.typ_units n = n ∧
      s.traits.max_characters n = s.traits.typ_characters n ∧
      s.traits.max_units n = s.traits.typ_units n := by
  obtain ⟨bits, t⟩ := s
  obtain ⟨-, -, -, -, -, h1, h2, h3, h4⟩ := charset_traits_members cset bits t hs
  simp only [h1, h2, h3, h4]
  exact ⟨rfl, rfl, rfl, rfl, rfl, rfl⟩

/-- The estimators of ucs2 at 1000 (C4 at a concrete input). -/
theorem fixed_codec_estimators_witness :
    (fixed_charset_traits charset_t.ucs2 char16_t).max_characters 1000 = 1000 ∧
      (fixed_charset_traits charset_t.ucs2 char16_t).typ_characters 1000 = 1000 ∧
      (fixed_charset_traits charset_t.ucs2 char16_t).max_units 1000 = 1000 ∧
      (fixed_charset_traits charset_t.ucs2 char16_t).typ_units 1000 = 1000 ∧
      (fixed_charset_traits charset_t.ucs2 char16_t).max_characters 1000
        = (fixed_charset_traits charset_t.ucs2 char16_t).typ_characters 1000 ∧
      (fixed_charset_traits charset_t.ucs2 char16_t).max_units 1000
        = (fixed_charset_traits charset_t.ucs2 char16_t).typ_units 1000 :=
  fixed_codec_estimators .ucs2 ⟨16, fixed_charset_traits .ucs2 char16_t⟩ rfl 1000

/-- C5: for every charset specialised in the file and every pointer `p` (the
character boundaries of a buffer in particular), `skip_backward_char` after
`skip_forward_char` returns the pointer to `p`, `skip_forward_char` alone
leaves it at `p + 1`, and neither operation changes the buffer. -/
theorem skip_backward_after_forward (cset : charset_t) (s : specialisation)
    (hs : charset_traits cset = some s) (p : unit_ptr_t (uint s.bits)) :
    s.traits.skip_backward_char (s.traits.skip_forward_char p) = p ∧
      (s.traits.skip_forward_char p).pos = p.pos + 1 ∧
      (s.traits.skip_forward_char p).buf = p.buf ∧
      (s.traits.skip_backward_char p).buf = p.buf := by
  obtain ⟨bits, t⟩ := s
  obtain ⟨-, -, hf, hb, -⟩ := charset_traits_members cset bits t hs
  simp only [hf, hb]
  exact ⟨fixed_charset_traits.skip_backward_forward cset _ p, rfl, rfl, rfl⟩

/-- Skipping forward and back from the second unit of an ISO-8859-1 buffer
(C5 at a concrete input). -/
theorem skip_backward_after_forward_witness :
    (fixed_byte_iso8859_common_superset_charset_traits charset_t.iso8859_1).skip_backward_char
        ((fixed_byte_iso8859_common_superset_charset_traits charset_t.iso8859_1).skip_forward_char
          ⟨[0x41, 0xA0], 1⟩) = ⟨[0x41, 0xA0], 1⟩ ∧
      ((fixed_byte_iso8859_common_superset_charset_traits charset_t.iso8859_1).skip_forward_char
          ⟨[0x41, 0xA0], 1⟩).pos = 1 + 1 ∧
      ((fixed_byte_iso8859_common_superset_charset_traits charset_t.iso8859_1).skip_forward_char
          ⟨[0x41, 0xA0], 1⟩).buf = [0x41, 0xA0] ∧
      ((fixed_byte_iso8859_common_superset_charset_traits charset_t.iso8859_1).skip_backward_char
          ⟨[0x41, 0xA0], 1⟩).buf = [0x41, 0xA0] :=
  skip_backward_after_forward .iso8859_1
    ⟨8, fixed_byte_iso8859_common_superset_charset_traits .iso8859_1⟩ rfl ⟨[0x41, 0xA0], 1⟩

/-- C6: for every charset specialised in the file, every buffer and every
pointer position, `char_length` returns 1, which is positive, whatever unit is
stored there, and leaves the pointer where it was. -/
theorem fixed_codec_char_length (cset : charset_t) (s : specialisation)
    (hs : charset_traits cset = some s) (p : unit_ptr_t (uint s.bits)) :
    s.traits.char_length p = (1, p) ∧ 0 < (s.traits.char_length p).1 := by
  obtain ⟨bits, t⟩ := s
  obtain ⟨-, -, -, -, hl, -⟩ := charset_traits_members cset bits t hs
  simp only [hl]
  exact ⟨rfl, by simp [fixed_charset_traits.char_length]⟩

/-- The length of a KOI8-R character, also at a pointer past the end of the
buffer (C6 at a concrete input). -/
theorem fixed_codec_char_length_witness :
    (fixed_byte_ascii_superset_charset_traits charset_t.koi8_r).char_length ⟨[0xC1], 5⟩
        = (1, ⟨[0xC1], 5⟩) ∧
      0 < ((fixed_byte_ascii_superset_charset_traits charset_t.koi8_r).char_length ⟨[0xC1], 5⟩).1 :=
  fixed_codec_char_length .koi8_r ⟨8, fixed_byte_ascii_superset_charset_traits .koi8_r⟩ rfl
    ⟨[0xC1], 5⟩

/-- C7: for every charset specialised in the file, `is_ascii_plus_c1_superset`
being true implies that `is_ascii_superset` is true. -/
theorem c1_superset_implies_ascii_superset (cset : charset_t) (s : specialisation)
    (hs : charset_traits cset = some s) (h : s.traits.is_ascii_plus_c1_superset = true) :
    s.traits.is_ascii_superset = true := by
  rcases charset_traits_flags cset s hs with ⟨-, h2⟩ | ⟨-, h2⟩ | ⟨h1, -⟩
  · rw [h2] at h; exact absurd h (by decide)
  · rw [h2] at h; exact absurd h (by decide)
  · exact h1

/-- The flags of ISO-8859-15 (C7 at a concrete input). -/
theorem c1_superset_implies_ascii_superset_witness :
    (fixed_byte_iso8859_common_superset_charset_traits charset_t.iso8859_15).is_ascii_superset
      = true :=
  c1_superset_implies_ascii_superset .iso8859_15
    ⟨8, fixed_byte_iso8859_common_superset_charset_traits .iso8859_15⟩ rfl rfl

/-! ## The compatibility flags -/

/-- Every specialisation in the file, whatever its flags, decodes a unit to the
character of the same value, as the ASCII codec does. -/
theorem decodes_ascii_range_as_ascii_of_specialised (cset : charset_t) (s : specialisation)
    (hs : charset_traits cset = some s) : decodes_ascii_range_as_ascii s := by
  obtain ⟨bits, t⟩ := s
  obtain ⟨hd, -⟩ := charset_traits_members cset bits t hs
  intro u p a _ hp ha
  refine ⟨u, ?_, ?_⟩
  · simp only [hd]
    cases hr : p.read with
    | none => simp [hr] at hp
    | some cu =>
      rw [hr] at hp
      simpa [fixed_charset_traits.decode, hr] using hp
  · cases hr : a.read with
    | none => simp [hr] at ha
    | some ca =>
      rw [hr] at ha
      simpa [fixed_byte_ascii_superset_charset_traits, fixed_byte_charset_traits,
        fixed_charset_traits, fixed_charset_traits.decode, hr] using ha

/-- C8, as stated, fails at cp037: its `is_ascii_superset` is false although it
decodes every unit value 0..127 to the character the ASCII codec decodes it
to, so the flag is not equivalent to that agreement. -/
theorem ascii_superset_iff_fails_at_cp037 :
    ∃ s, charset_traits charset_t.cp037 = some s ∧
      ¬ (s.traits.is_ascii_superset = true ↔ decodes_ascii_range_as_ascii s) := by
  refine ⟨⟨8, fixed_byte_charset_traits .cp037⟩, rfl, ?_⟩
  intro h
  have hflag := h.mpr (decodes_ascii_range_as_ascii_of_specialised .cp037 _ rfl)
  exact absurd hflag (by decide)

/-- C8, amended: for every charset specialised in the file, if
`is_ascii_superset` is true then every unit value 0..127 decodes to the
identical character that the ASCII codec decodes it to. -/
theorem ascii_superset_decodes_as_ascii (cset : charset_t) (s : specialisation)
    (hs : charset_traits cset = some s) (h : s.traits.is_ascii_superset = true) :
    decodes_ascii_range_as_ascii s :=
  decodes_ascii_range_as_ascii_of_specialised cset s hs

/-- KOI8-U, an ASCII superset, decodes 0..127 as ASCII does (C8 amended at a
concrete input). -/
theorem ascii_superset_decodes_as_ascii_witness :
    decodes_ascii_range_as_ascii ⟨8, fixed_byte_ascii_superset_charset_traits charset_t.koi8_u⟩ :=
  ascii_superset_decodes_as_ascii .koi8_u
    ⟨8, fixed_byte_ascii_superset_charset_traits .koi8_u⟩ rfl rfl

/-- C9: the flag pair (`is_ascii_superset`, `is_ascii_plus_c1_superset`) is
(true, true) for every ISO-8859 charset, (true, false) for ascii and the KOI8
charsets, and (false, false) for every ISO-646 variant, every cp, ibm or windows
code page, ucs2 and ucs4; these families are all the charsets specialised in
the file. -/
theorem flag_pairs_by_family :
    (∀ cset ∈ iso8859_charsets, charset_traits.flags cset = some (true, true)) ∧
    (∀ cset ∈ charset_t.ascii :: koi8_charsets,
      charset_traits.flags cset = some (true, false)) ∧
    (∀ cset ∈ iso646_charsets ++ code_page_charsets ++ fixed_unicode_charsets,
      charset_traits.flags cset = some (false, false)) ∧
    (∀ cset, charset_traits cset ≠ none →
      cset ∈ charset_t.ascii :: koi8_charsets ++ iso8859_charsets ++ iso646_charsets
        ++ code_page_charsets ++ fixed_unicode_charsets) := by
  refine ⟨by decide, by decide, by decide, ?_⟩
  intro cset h
  simp only [iso8859_charsets, koi8_charsets, iso646_charsets, code_page_charsets,
    fixed_unicode_charsets, List.cons_append, List.nil_append]
  cases cset <;>
    first
    | exact absurd rfl h
    | (repeat (first | exact List.Mem.head _ | apply List.Mem.tail))

/-- C10: the fixed codec is shared.  For any two charsets specialised with the
same unit type, `decode`, `encode`, `skip_forward_char`, `skip_backward_char`,
`char_length` and the four estimators are equal as functions; so when both set
`is_ascii_plus_c1_superset`, as the ISO-8859 charsets do, a unit of value 0..160
(0xA0 in particular) decodes to the same character under both. -/
theorem fixed_codec_shared (a b : charset_t) (bits : Nat) (ta tb : Traits (uint bits))
    (ha : charset_traits a = some ⟨bits, ta⟩) (hb : charset_traits b = some ⟨bits, tb⟩) :
    ta.decode = tb.decode ∧ ta.encode = tb.encode ∧
      ta.skip_forward_char = tb.skip_forward_char ∧
      ta.skip_backward_char = tb.skip_backward_char ∧
      ta.char_length = tb.char_length ∧
      ta.max_characters = tb.max_characters ∧ ta.typ_characters = tb.typ_characters ∧
      ta.max_units = tb.max_units ∧ ta.typ_units = tb.typ_units ∧
      (ta.is_ascii_plus_c1_superset = true → tb.is_ascii_plus_c1_superset = true →
        ∀ (p : unit_ptr_t (uint bits)) (u : uint bits), p.read = some u → u.val ≤ 160 →
          ta.decode p = some (u, ⟨p.buf, p.pos + 1⟩) ∧
          tb.decode p = some (u, ⟨p.buf, p.pos + 1⟩)) := by
  obtain ⟨a1, a2, a3, a4, a5, a6, a7, a8, a9⟩ := charset_traits_members a bits ta ha
  obtain ⟨b1, b2, b3, b4, b5, b6, b7, b8, b9⟩ := charset_traits_members b bits tb hb
  refine ⟨a1.trans b1.symm, a2.trans b2.symm, a3.trans b3.symm, a4.trans b4.symm,
    a5.trans b5.symm, a6.trans b6.symm, a7.trans b7.symm, a8.trans b8.symm,
    a9.trans b9.symm, ?_⟩
  intro _ _ p u hu _
  simp [a1, b1, fixed_charset_traits.decode, hu, unit_ptr_t.incr]

/-- ISO-8859-1 and ISO-8859-15 share their functions and decode the unit 0xA0
to the same character 160 (C10 at a concrete input). -/
theorem fixed_codec_shared_witness :
    (fixed_byte_iso8859_common_superset_charset_traits charset_t.iso8859_1).decode
        = (fixed_byte_iso8859_common_superset_charset_traits charset_t.iso8859_15).decode ∧
      (fixed_byte_iso8859_common_superset_charset_traits charset_t.iso8859_1).decode
        ⟨[0x41, 0xA0], 1⟩ = some (160, ⟨[0x41, 0xA0], 1 + 1⟩) ∧
      (fixed_byte_iso8859_common_superset_charset_traits charset_t.iso8859_15).decode
        ⟨[0x41, 0xA0], 1⟩ = some (160, ⟨[0x41, 0xA0], 1 + 1⟩) :=
  have h := fixed_codec_shared .iso8859_1 .iso8859_15 8
    (fixed_byte_iso8859_common_superset_charset_traits .iso8859_1)
    (fixed_byte_iso8859_common_superset_charset_traits .iso8859_15) rfl rfl
  ⟨h.1, h.2.2.2.2.2.2.2.2.2 rfl rfl ⟨[0x41, 0xA0], 1⟩ 0xA0 (by decide) (by decide)⟩

/-- Storing back the unit that is already at an index leaves the list as it
was. -/
theorem list_set_same {C : Type} (l : List C) (i : Nat) (h : i < l.length) :
    l.set i l[i] = l := by
  apply List.ext_getElem?
  intro j
  rw [List.getElem?_set]
  by_cases hij : i = j
  · subst hij
    simp [h, List.getElem?_eq_getElem h]
  · simp [hij]

/-! ## Whole-buffer passes with the fixed codec -/

namespace fixed_charset_traits

variable (cset : charset_t) {C : Type}

theorem decode_at (buf : List C) (k : Nat) (hk : k < buf.length) :
    decode cset C ⟨buf, k⟩ = some (buf[k], ⟨buf, (k : Int) + 1⟩) := by
  simp [decode, unit_ptr_t.read, unit_ptr_t.incr, List.getElem?_eq_getElem hk]

theorem encode_at (buf : List C) (k : Nat) (c : C) (hk : k < buf.length) :
    encode cset C ⟨buf, k⟩ c = some ⟨buf.set k c, (k : Int) + 1⟩ := by
  simp [encode, unit_ptr_t.write, unit_ptr_t.incr, hk]

/-- With enough fuel the decoding pass started at index `k` returns the units
from `k` on and stops at the end of the buffer. -/
theorem decode_to_end_from (t : Traits C) (ht : t.decode = decode cset C) (buf : List C) :
    ∀ (fuel k : Nat), k ≤ buf.length → buf.length - k ≤ fuel →
      decode_to_end t fuel ⟨buf, k⟩ = some (buf.drop k, ⟨buf, buf.length⟩) := by
  intro fuel
  induction fuel with
  | zero =>
    intro k hk hf
    have hkn : k = buf.length := by omega
    subst hkn
    simp [decode_to_end]
  | succ fuel ih =>
    intro k hk hf
    by_cases hkn : k = buf.length
    · subst hkn
      simp [decode_to_end]
    · have hlt : k < buf.length := by omega
      have hne : ¬ ((k : Int) = (buf.length : Int)) := by omega
      have hnext := ih (k + 1) (by omega) (by omega)
      rw [Nat.cast_succ] at hnext
      rw [decode_to_end]
      simp only [hne, if_false, ht, decode_at cset buf k hlt, hnext]
      rw [List.drop_eq_getElem_cons hlt]

/-- With less fuel than units left the decoding pass does not finish. -/
theorem decode_to_end_short (t : Traits C) (ht : t.decode = decode cset C) (buf : List C) :
    ∀ (fuel k : Nat), k ≤ buf.length → fuel < buf.length - k →
      decode_to_end t fuel ⟨buf, k⟩ = none := by
  intro fuel
  induction fuel with
  | zero =>
    intro k hk hf
    have hne : ¬ ((k : Int) = (buf.length : Int)) := by omega
    rw [decode_to_end]
    simp only [hne, if_false]
  | succ fuel ih =>
    intro k hk hf
    have hlt : k < buf.length := by omega
    have hne : ¬ ((k : Int) = (buf.length : Int)) := by omega
    have hnext := ih (k + 1) (by omega) (by omega)
    rw [Nat.cast_succ] at hnext
    rw [decode_to_end]
    simp only [hne, if_false, ht, decode_at cset buf k hlt, hnext]

/-- The encoding pass over a destination of the right length, started behind
the units `pre`, replaces the destination by the characters. -/
theorem encode_all_from (t : Traits C) (ht : t.encode = encode cset C) :
    ∀ (cs pre dst : List C), dst.length = cs.length →
      encode_all t cs ⟨pre ++ dst, pre.length⟩
        = some ⟨pre ++ cs, ((pre.length + cs.length : Nat) : Int)⟩ := by
  intro cs
  induction cs with
  | nil =>
    intro pre dst h
    have hd : dst = [] := List.length_eq_zero.mp h
    subst hd
    simp [encode_all]
  | cons c cs ih =>
    intro pre dst h
    cases dst with
    | nil => simp at h
    | cons d ds =>
      have hlen : ds.length = cs.length := by simpa using h
      have hlt : pre.length < (pre ++ d :: ds).length := by simp
      have hnext := ih (pre ++ [c]) ds hlen
      have hset : (pre ++ d :: ds).set pre.length c = pre ++ [c] ++ ds := by
        simp [List.set_append]
      rw [encode_all]
      simp only [ht, encode_at cset _ _ c hlt, hset]
      have hpos : ((pre.length : Int) + 1) = ((pre ++ [c]).length : Nat) := by simp
      rw [hpos, hnext]
      simp [Nat.add_assoc, Nat.add_comm 1]

/-- With enough fuel the walk started at index `k` visits `k`, `k + 1`, ... up
to the last unit and finds length 1 at each. -/
theorem walk_to_end_from (t : Traits C) (hs : t.skip_forward_char = skip_forward_char cset C)
    (hl : t.char_length = char_length cset C) (buf : List C) :
    ∀ (fuel k : Nat), k ≤ buf.length → buf.length - k ≤ fuel →
      walk_to_end t fuel ⟨buf, k⟩
        = some ((List.range' k (buf.length - k)).map fun i => ((i : Int), (1 : Int))) := by
  intro fuel
  induction fuel with
  | zero =>
    intro k hk hf
    have hkn : k = buf.length := by omega
    subst hkn
    simp [walk_to_end]
  | succ fuel ih =>
    intro k hk hf
    by_cases hkn : k = buf.length
    · subst hkn
      simp [walk_to_end]
    · have hlt : k < buf.length := by omega
      have hne : ¬ ((k : Int) = (buf.length : Int)) := by omega
      have hnext := ih (k + 1) (by omega) (by omega)
      rw [Nat.cast_succ] at hnext
      have hlen : buf.length - k = (buf.length - (k + 1)) + 1 := by omega
      rw [walk_to_end]
      simp only [hne, if_false, hs, hl, char_length, skip_forward_char, unit_ptr_t.incr, hnext]
      rw [hlen, List.range'_succ]
      simp

end fixed_charset_traits

/-- In `fixed_charset_traits<cset,C>::state_t`, an empty struct, any two values
are equal: the state of a stateless codec carries no information. -/
theorem fixed_charset_traits.state_t_unique (cset : charset_t) (C : Type)
    (x y : fixed_charset_traits.state_t cset C) : x = y := by
  cases x
  cases y
  rfl

/-! ## Failure, lookup and whole-buffer behaviour -/

/-- C11: fixed-codec decode and encode never fail.  For every charset
specialised in the file, every buffer and every in-bounds pointer, `decode`
yields a character, and does so whatever unit value is stored at the pointer,
and `encode` succeeds for every value of the character type. -/
theorem fixed_codec_never_fails (cset : charset_t) (s : specialisation)
    (hs : charset_traits cset = some s) (p : unit_ptr_t (uint s.bits)) (hp : p.in_bounds) :
    (∃ c q, s.traits.decode p = some (c, q)) ∧
      (∀ u : uint s.bits, ∃ q,
        s.traits.decode ⟨p.buf.set p.pos.toNat u, p.pos⟩ = some (u, q)) ∧
      (∀ c : uint s.bits, ∃ q, s.traits.encode p c = some q) := by
  obtain ⟨bits, t⟩ := s
  obtain ⟨hd, he, -⟩ := charset_traits_members cset bits t hs
  simp only [hd, he]
  refine ⟨?_, ?_, ?_⟩
  · obtain ⟨u, -, h⟩ := fixed_charset_traits.decode_of_in_bounds cset (uint bits) p hp
    exact ⟨u, _, h⟩
  · intro u
    obtain ⟨q, hq, h⟩ := fixed_charset_traits.decode_after_encode cset (uint bits) p u hp
    rw [fixed_charset_traits.encode_of_in_bounds cset (uint bits) p u hp] at hq
    cases hq
    exact ⟨_, h⟩
  · intro c
    exact ⟨_, fixed_charset_traits.encode_of_in_bounds cset (uint bits) p c hp⟩

/-- Decoding and encoding at the last unit of a cp437 buffer, for the unit
values 0 and 255 among others (C11 at a concrete input). -/
theorem fixed_codec_never_fails_witness :
    (∃ c q, (fixed_byte_charset_traits charset_t.cp437).decode ⟨[0, 0xFF], 1⟩ = some (c, q)) ∧
      (∀ u : char8_t, ∃ q,
        (fixed_byte_charset_traits charset_t.cp437).decode ⟨[0, u], 1⟩ = some (u, q)) ∧
      (∀ c : char8_t, ∃ q,
        (fixed_byte_charset_traits charset_t.cp437).encode ⟨[0, 0xFF], 1⟩ c = some q) :=
  fixed_codec_never_fails .cp437 ⟨8, fixed_byte_charset_traits .cp437⟩ rfl
    ⟨[0, 0xFF], 1⟩ (by decide)

/-- C12: dynamic lookup by charset identifier.  An identifier with no codec
yields the error `UnknownCharset`, and no codec in its place; an identifier with
a codec yields the codec of the static `charset_traits` binding. -/
theorem registry_lookup_unknown_or_static (cset : charset_t) :
    (charset_traits cset = none →
      registry_lookup cset = Except.error charset_error.UnknownCharset ∧
      ∀ s, registry_lookup cset ≠ Except.ok s) ∧
    (∀ s, charset_traits cset = some s → registry_lookup cset = Except.ok s) ∧
    (∀ id, registry_lookup (charset_t.unspecialised id)
      = Except.error charset_error.UnknownCharset) := by
  refine ⟨?_, ?_, fun id => rfl⟩
  · intro h
    simp [registry_lookup, h]
  · intro s h
    simp [registry_lookup, h]

/-- Looking up an identifier without a codec and looking up ucs2 (C12 at
concrete inputs). -/
theorem registry_lookup_unknown_or_static_witness :
    registry_lookup (charset_t.unspecialised 7) = Except.error charset_error.UnknownCharset ∧
      registry_lookup charset_t.ucs2
        = Except.ok ⟨16, fixed_charset_traits charset_t.ucs2 char16_t⟩ :=
  ⟨((registry_lookup_unknown_or_static (.unspecialised 7)).1 rfl).1,
    (registry_lookup_unknown_or_static .ucs2).2.1 _ rfl⟩

/-- C14: whole-buffer decoding and encoding.  For every charset specialised in
the file and every buffer of `n` units, the decoding pass from the start of the
buffer, given room for `n` calls of `decode`, returns the buffer's units in
order and stops at the end, and it cannot finish in fewer than `n` calls; the
encoding pass of `n` characters from the start of an `n`-unit buffer leaves a
buffer equal to the character sequence. -/
theorem whole_buffer_decode_encode (cset : charset_t) (s : specialisation)
    (hs : charset_traits cset = some s) (buf : List (uint s.bits)) (fuel : Nat)
    (hf : buf.length ≤ fuel) :
    decode_to_end s.traits fuel ⟨buf, 0⟩ = some (buf, ⟨buf, buf.length⟩) ∧
      (∀ calls, calls < buf.length → decode_to_end s.traits calls ⟨buf, 0⟩ = none) ∧
      (∀ dst : List (uint s.bits), dst.length = buf.length →
        encode_all s.traits buf ⟨dst, 0⟩ = some ⟨buf, buf.length⟩) := by
  obtain ⟨bits, t⟩ := s
  obtain ⟨hd, he, -⟩ := charset_traits_members cset bits t hs
  refine ⟨?_, ?_, ?_⟩
  · have h := fixed_charset_traits.decode_to_end_from cset t hd buf fuel 0 (Nat.zero_le _)
      (by omega)
    simpa using h
  · intro calls hc
    have h := fixed_charset_traits.decode_to_end_short cset t hd buf calls 0 (Nat.zero_le _)
      (by omega)
    simpa using h
  · intro dst hlen
    have h := fixed_charset_traits.encode_all_from cset t he buf [] dst hlen
    simpa using h

/-- The ucs2 buffer [0x0041, 0x0042] decodes to 65 then 66, the pointer being
on index 1 after the first `decode` (C14 at a concrete input). -/
theorem whole_buffer_decode_encode_witness :
    decode_to_end (fixed_charset_traits charset_t.ucs2 char16_t) 2 ⟨[0x0041, 0x0042], 0⟩
        = some ([65, 66], ⟨[0x0041, 0x0042], 2⟩) ∧
      (fixed_charset_traits charset_t.ucs2 char16_t).decode ⟨[0x0041, 0x0042], 0⟩
        = some (65, ⟨[0x0041, 0x0042], 1⟩) ∧
      encode_all (fixed_charset_traits charset_t.ucs2 char16_t) [0x0041, 0x0042] ⟨[0, 0], 0⟩
        = some ⟨[65, 66], 2⟩ :=
  have h := whole_buffer_decode_encode .ucs2 ⟨16, fixed_charset_traits .ucs2 char16_t⟩ rfl
    [0x0041, 0x0042] 2 (by decide)
  ⟨h.1, by decide, h.2.2 [0, 0] rfl⟩

/-- C15: for every charset specialised in the file and every buffer of `n`
units, the walk with `skip_forward_char` from the start of the buffer to its end
visits exactly the positions 0 .. n-1, finds a positive `char_length` at each,
and the lengths found add up to `n`. -/
theorem walk_char_lengths (cset : charset_t) (s : specialisation)
    (hs : charset_traits cset = some s) (buf : List (uint s.bits)) (fuel : Nat)
    (hf : buf.length ≤ fuel) :
    ∃ visited, walk_to_end s.traits fuel ⟨buf, 0⟩ = some visited ∧
      visited.map Prod.fst = (List.range buf.length).map (fun i => (i : Int)) ∧
      (∀ v ∈ visited, 0 < v.2) ∧
      (visited.map Prod.snd).sum = buf.length := by
  obtain ⟨bits, t⟩ := s
  obtain ⟨-, -, hf1, -, hl, -⟩ := charset_traits_members cset bits t hs
  have h := fixed_charset_traits.walk_to_end_from cset t hf1 hl buf fuel 0 (Nat.zero_le _)
    (by omega)
  refine ⟨_, by simpa using h, ?_, ?_, ?_⟩
  · simp [List.range_eq_range', Function.comp_def]
  · intro v hv
    simp only [List.mem_map] at hv
    obtain ⟨i, -, rfl⟩ := hv
    exact Int.one_pos
  · simp [Function.comp_def]

/-- Walking a three-unit ISO-646 buffer (C15 at a concrete input). -/
theorem walk_char_lengths_witness :
    ∃ visited, walk_to_end (fixed_byte_charset_traits charset_t.iso646_de) 3 ⟨[0x5B, 0x5C, 0x5D], 0⟩
        = some visited ∧
      visited.map Prod.fst = (List.range 3).map (fun i => (i : Int)) ∧
      (∀ v ∈ visited, 0 < v.2) ∧
      (visited.map Prod.snd).sum = (3 : Nat) :=
  walk_char_lengths .iso646_de ⟨8, fixed_byte_charset_traits .iso646_de⟩ rfl
    [0x5B, 0x5C, 0x5D] 3 (by decide)

/-- C16: pointer agreement.  For every charset specialised in the file, every
buffer and every in-bounds pointer `p`, the pointer left by `decode`, the
pointer left by `encode` of any character and the pointer left by
`skip_forward_char` all stand at `p` plus the `char_length` at `p`. -/
theorem pointer_after_operations (cset : charset_t) (s : specialisation)
    (hs : charset_traits cset = some s) (p : unit_ptr_t (uint s.bits)) (hp : p.in_bounds) :
    (∃ c q, s.traits.decode p = some (c, q) ∧ q.pos = p.pos + (s.traits.char_length p).1) ∧
      (∀ c : uint s.bits, ∃ q, s.traits.encode p c = some q ∧
        q.pos = p.pos + (s.traits.char_length p).1) ∧
      (s.traits.skip_forward_char p).pos = p.pos + (s.traits.char_length p).1 := by
  obtain ⟨bits, t⟩ := s
  obtain ⟨hd, he, hf, -, hl, -⟩ := charset_traits_members cset bits t hs
  simp only [hd, he, hf, hl]
  refine ⟨?_, ?_, rfl⟩
  · obtain ⟨u, -, h⟩ := fixed_charset_traits.decode_of_in_bounds cset (uint bits) p hp
    exact ⟨u, _, h, rfl⟩
  · intro c
    exact ⟨_, fixed_charset_traits.encode_of_in_bounds cset (uint bits) p c hp, rfl⟩

/-- The three pointers at the second unit of a ucs4 buffer (C16 at a concrete
input). -/
theorem pointer_after_operations_witness :
    (∃ c q, (fixed_charset_traits charset_t.ucs4 char32_t).decode ⟨[0x41, 0x1F600, 0x42], 1⟩
        = some (c, q) ∧
        q.pos = 1 + ((fixed_charset_traits charset_t.ucs4 char32_t).char_length
          ⟨[0x41, 0x1F600, 0x42], 1⟩).1) ∧
      (∀ c : char32_t, ∃ q,
        (fixed_charset_traits charset_t.ucs4 char32_t).encode ⟨[0x41, 0x1F600, 0x42], 1⟩ c
          = some q ∧
        q.pos = 1 + ((fixed_charset_traits charset_t.ucs4 char32_t).char_length
          ⟨[0x41, 0x1F600, 0x42], 1⟩).1) ∧
      ((fixed_charset_traits charset_t.ucs4 char32_t).skip_forward_char
          ⟨[0x41, 0x1F600, 0x42], 1⟩).pos
        = 1 + ((fixed_charset_traits charset_t.ucs4 char32_t).char_length
          ⟨[0x41, 0x1F600, 0x42], 1⟩).1 :=
  pointer_after_operations .ucs4 ⟨32, fixed_charset_traits .ucs4 char32_t⟩ rfl
    ⟨[0x41, 0x1F600, 0x42], 1⟩ (by decide)

/-- C17: re-encoding is the identity on buffers.  For every charset specialised
in the file, every buffer and every in-bounds pointer `p`, decoding the
character at `p` and then encoding that character at `p` leaves a buffer equal
to the original one. -/
theorem reencode_keeps_buffer (cset : charset_t) (s : specialisation)
    (hs : charset_traits cset = some s) (p : unit_ptr_t (uint s.bits)) (hp : p.in_bounds) :
    ∃ c q, s.traits.decode p = some (c, q) ∧
      ∃ r, s.traits.encode ⟨q.buf, p.pos⟩ c = some r ∧ r.buf = p.buf := by
  obtain ⟨bits, t⟩ := s
  obtain ⟨hd, he, -⟩ := charset_traits_members cset bits t hs
  simp only [hd, he]
  obtain ⟨u, hu, h⟩ := fixed_charset_traits.decode_of_in_bounds cset (uint bits) p hp
  refine ⟨u, _, h, _, fixed_charset_traits.encode_of_in_bounds cset (uint bits)
    ⟨p.buf, p.pos⟩ u hp, ?_⟩
  obtain ⟨h0, h1⟩ := hp
  have hlt : p.pos.toNat < p.buf.length := by omega
  rw [List.getElem?_eq_getElem hlt] at hu
  cases hu
  exact list_set_same p.buf p.pos.toNat hlt

/-- Decoding and re-encoding the middle unit of a windows-1252 buffer (C17 at a
concrete input). -/
theorem reencode_keeps_buffer_witness :
    ∃ c q, (fixed_byte_charset_traits charset_t.windows_1252).decode ⟨[0x80, 0x93, 0x94], 1⟩
        = some (c, q) ∧
      ∃ r, (fixed_byte_charset_traits charset_t.windows_1252).encode ⟨q.buf, 1⟩ c = some r ∧
        r.buf = [0x80, 0x93, 0x94] :=
  reencode_keeps_buffer .windows_1252 ⟨8, fixed_byte_charset_traits .windows_1252⟩ rfl
    ⟨[0x80, 0x93, 0x94], 1⟩ (by decide)

/-- C18: the skips in the other order.  For every charset specialised in the
file and every pointer at a position `p ≥ 1`, `skip_backward_char` lands on
`p - 1`, which points at a unit when `p` is at most the buffer length, and
`skip_forward_char` after it returns the pointer to `p`; at `p = 0`
`skip_backward_char` lands on -1, outside the buffer, where nothing can be
read: the code checks no bound. -/
theorem skip_forward_after_backward (cset : charset_t) (s : specialisation)
    (hs : charset_traits cset = some s) (p : unit_ptr_t (uint s.bits)) :
    (1 ≤ p.pos →
      s.traits.skip_forward_char (s.traits.skip_backward_char p) = p ∧
      (s.traits.skip_backward_char p).pos = p.pos - 1 ∧
      (s.traits.skip_backward_char p).buf = p.buf ∧
      (p.pos ≤ p.buf.length → (s.traits.skip_backward_char p).in_bounds)) ∧
    (p.pos = 0 →
      (s.traits.skip_backward_char p).pos = -1 ∧
      ¬ (s.traits.skip_backward_char p).in_bounds ∧
      (s.traits.skip_backward_char p).read = none) := by
  obtain ⟨bits, t⟩ := s
  obtain ⟨-, -, hf, hb, -⟩ := charset_traits_members cset bits t hs
  simp only [hf, hb]
  obtain ⟨buf, pos⟩ := p
  constructor
  · intro h1
    refine ⟨?_, rfl, rfl, ?_⟩
    · simp [fixed_charset_traits.skip_forward_char, fixed_charset_traits.skip_backward_char,
        unit_ptr_t.incr, unit_ptr_t.decr]
    · intro h2
      simp only [fixed_charset_traits.skip_backward_char, unit_ptr_t.decr,
        unit_ptr_t.in_bounds] at h1 h2 ⊢
      omega
  · intro h0
    simp only at h0
    subst h0
    refine ⟨rfl, ?_, ?_⟩
    · simp [fixed_charset_traits.skip_backward_char, unit_ptr_t.decr, unit_ptr_t.in_bounds]
    · simp [fixed_charset_traits.skip_backward_char, unit_ptr_t.decr, unit_ptr_t.read]

/-- Skipping back from positions 2 and 0 of a two-unit KOI8-R buffer (C18 at
concrete inputs). -/
theorem skip_forward_after_backward_witness :
    ((fixed_byte_ascii_superset_charset_traits charset_t.koi8_r).skip_forward_char
        ((fixed_byte_ascii_superset_charset_traits charset_t.koi8_r).skip_backward_char
          ⟨[0xC1, 0xC2], 2⟩) = ⟨[0xC1, 0xC2], 2⟩ ∧
      ((fixed_byte_ascii_superset_charset_traits charset_t.koi8_r).skip_backward_char
          ⟨[0xC1, 0xC2], 2⟩).pos = 2 - 1) ∧
    (((fixed_byte_ascii_superset_charset_traits charset_t.koi8_r).skip_backward_char
          ⟨[0xC1, 0xC2], 0⟩).pos = -1 ∧
      ¬ ((fixed_byte_ascii_superset_charset_traits charset_t.koi8_r).skip_backward_char
          ⟨[0xC1, 0xC2], 0⟩).in_bounds) :=
  have h2 := (skip_forward_after_backward .koi8_r
    ⟨8, fixed_byte_ascii_superset_charset_traits .koi8_r⟩ rfl ⟨[0xC1, 0xC2], 2⟩).1 (by decide)
  have h0 := (skip_forward_after_backward .koi8_r
    ⟨8, fixed_byte_ascii_superset_charset_traits .koi8_r⟩ rfl ⟨[0xC1, 0xC2], 0⟩).2 rfl
  ⟨⟨h2.1, h2.2.1⟩, ⟨h0.1, h0.2.1⟩⟩

end pbe
